import Mathlib

/-
Verification model of the metadynamics bias engine in src/bias/MetaD.cpp
(PLUMED 2.0).  Real-valued quantities of the C++ code (double) are modelled
as real numbers; CV vectors and per-axis data are modelled as functions
from axis index to the reals, with an explicit number of CVs (ncv) bounding
the relevant indices.  External collaborators that are not part of the
source tree (the periodic-difference function of the CV framework, the Grid
container, and the dense linear algebra of tools/Matrix.h) enter the model
as parameters or as definitions modelled from the specification, marked as
such in their doc comments.
-/

noncomputable section

namespace MetaDSpec

/-- The fixed Gaussian cutoff constant DP2CUTOFF of MetaD.cpp. -/
def DP2CUTOFF : ℝ := 6.25

/-- One deposited hill (struct MetaD::Gaussian): center, sigma (per-axis
widths for isotropic hills, packed upper-triangular entries of the inverse
covariance for multivariate hills), height and the shape flag. -/
structure Gaussian where
  center : ℕ → ℝ
  sigma : ℕ → ℝ
  height : ℝ
  multivariate : Bool

instance : Inhabited Gaussian := ⟨⟨fun _ => 0, fun _ => 0, 0, false⟩⟩

/-- The invsigma entry computed by the Gaussian constructor:
abs(s) greater than 1e-20 gives 1/s, otherwise the entry is left equal to s. -/
def invsigmaEntry (s : ℝ) : ℝ := if 1e-20 < |s| then 1 / s else s

/-- The cached inverse-width vector of a constructed hill. -/
def Gaussian.invsigma (h : Gaussian) : ℕ → ℝ := fun i => invsigmaEntry (h.sigma i)

/-- Interval-restriction configuration (doInt_, lowI_, uppI_ of MetaD). -/
structure Interval where
  doInt : Bool
  lowI : ℝ
  uppI : ℝ

/-- The interval gate of evaluateGaussian and of the grid branch of
getBiasAndDerivatives: (doInt_ and lowI_ < cv[0] < uppI_) or (not doInt_). -/
def intervalGate (I : Interval) (cv : ℕ → ℝ) : Prop :=
  (I.doInt = true ∧ I.lowI < cv 0 ∧ cv 0 < I.uppI) ∨ I.doInt = false

instance (I : Interval) (cv : ℕ → ℝ) : Decidable (intervalGate I cv) := by
  unfold intervalGate; infer_instance

/-- The interval configuration with the restriction inactive. -/
def noInterval : Interval := ⟨false, 0, 0⟩

/-- Position of the pair (i, j), for i at most j, in the packed row-major
upper-triangular storage of a symmetric ncv-by-ncv matrix. -/
def packIdx (ncv i j : ℕ) : ℕ := i * ncv - i * (i - 1) / 2 + (j - i)

/-- Recompose the full symmetric matrix from packed storage, as done by the
loops mymatrix(i,j)=mymatrix(j,i)=hill.sigma[k] in MetaD.cpp. -/
def recompose (ncv : ℕ) (packed : ℕ → ℝ) (i j : ℕ) : ℝ :=
  if i ≤ j then packed (packIdx ncv i j) else packed (packIdx ncv j i)

/-- The scaled displacement dp_[i] of the isotropic branch of
evaluateGaussian: periodic difference times the cached inverse width.
The periodic-difference function of the CV framework is the parameter diff. -/
def dpIso (diff : ℕ → ℝ → ℝ → ℝ) (h : Gaussian) (cv : ℕ → ℝ) (i : ℕ) : ℝ :=
  diff i (h.center i) (cv i) * invsigmaEntry (h.sigma i)

/-- dp2 of the isotropic branch: sum of squared scaled displacements,
multiplied by 0.5 afterwards, as in the code. -/
def dp2Iso (diff : ℕ → ℝ → ℝ → ℝ) (ncv : ℕ) (h : Gaussian) (cv : ℕ → ℝ) : ℝ :=
  (∑ i ∈ Finset.range ncv, dpIso diff h cv i ^ 2) * 0.5

/-- dp2 of the multivariate branch: the upper-triangular double loop with
diagonal terms dp_i * dp_i * M(i,i) * 0.5 and off-diagonal terms
dp_i * dp_j * M(i,j). -/
def dp2Mv (diff : ℕ → ℝ → ℝ → ℝ) (ncv : ℕ) (h : Gaussian) (cv : ℕ → ℝ) : ℝ :=
  ∑ i ∈ Finset.range ncv, ∑ j ∈ Finset.Ico i ncv,
    (if i = j then
      diff i (h.center i) (cv i) * diff i (h.center i) (cv i) * recompose ncv h.sigma i j * 0.5
    else
      diff i (h.center i) (cv i) * diff j (h.center j) (cv j) * recompose ncv h.sigma i j)

/-- MetaD::evaluateGaussian: value of one hill at a query point together with
the contribution this call adds into the derivative buffer (the zero function
when the code adds nothing).  Both the cutoff test dp2 less than DP2CUTOFF and
the interval gate guard the value and the derivative alike. -/
def evaluateGaussian (diff : ℕ → ℝ → ℝ → ℝ) (I : Interval) (ncv : ℕ)
    (cv : ℕ → ℝ) (h : Gaussian) : ℝ × (ℕ → ℝ) :=
  if h.multivariate then
    let dp2 := dp2Mv diff ncv h cv
    if dp2 < DP2CUTOFF ∧ intervalGate I cv then
      let bias := h.height * Real.exp (-dp2)
      (bias, fun i => if i < ncv then
        -(∑ j ∈ Finset.range ncv,
            diff j (h.center j) (cv j) * recompose ncv h.sigma i j * bias)
        else 0)
    else (0, fun _ => 0)
  else
    let dp2 := dp2Iso diff ncv h cv
    if dp2 < DP2CUTOFF ∧ intervalGate I cv then
      let bias := h.height * Real.exp (-dp2)
      (bias, fun i => if i < ncv then
        -bias * dpIso diff h cv i * invsigmaEntry (h.sigma i) else 0)
    else (0, fun _ => 0)

/-- List-mode MetaD::getBiasAndDerivatives, bias part: the indexed loop over
hills_ summing evaluateGaussian (single worker covers every index). -/
def getBiasList (diff : ℕ → ℝ → ℝ → ℝ) (I : Interval) (ncv : ℕ)
    (hills : List Gaussian) (cv : ℕ → ℝ) : ℝ :=
  ∑ k ∈ Finset.range hills.length,
    (evaluateGaussian diff I ncv cv (hills.getD k default)).1

/-- List-mode MetaD::getBiasAndDerivatives, derivative component i:
the per-hill contributions accumulated into the caller's buffer. -/
def getDerList (diff : ℕ → ℝ → ℝ → ℝ) (I : Interval) (ncv : ℕ)
    (hills : List Gaussian) (cv : ℕ → ℝ) (i : ℕ) : ℝ :=
  ∑ k ∈ Finset.range hills.length,
    (evaluateGaussian diff I ncv cv (hills.getD k default)).2 i

/-- The height written to a HILLS record by MetaD::writeGaussian: the
in-memory height, rescaled by biasf/(biasf-1) in well-tempered mode. -/
def writeHeight (welltemp : Bool) (biasf h : ℝ) : ℝ :=
  if welltemp then h * (biasf / (biasf - 1)) else h

/-- The height obtained from a record by MetaD::readGaussians and
readChunkOfGaussians: the stored height, rescaled by (biasf-1)/biasf in
well-tempered mode, used for restart replay and for peer-log replay alike. -/
def readHeight (welltemp : Bool) (biasf h : ℝ) : ℝ :=
  if welltemp then h * ((biasf - 1) / biasf) else h

/-- C10: for every constructed hill, the cached inverse-width entry equals
1/sigma_i when the absolute width exceeds 1e-20 and is otherwise left equal
to sigma_i itself; in the near-zero case its magnitude stays at most 1e-20,
so evaluation multiplies by a tiny factor instead of dividing by the width. -/
theorem C10_invsigma_cache (h : Gaussian) (i : ℕ) :
    (1e-20 < |h.sigma i| → h.invsigma i = 1 / h.sigma i) ∧
    (|h.sigma i| ≤ 1e-20 → h.invsigma i = h.sigma i) ∧
    (|h.sigma i| ≤ 1e-20 → |h.invsigma i| ≤ 1e-20) := by
  refine ⟨fun hgt => ?_, fun hle => ?_, fun hle => ?_⟩
  · simp [Gaussian.invsigma, invsigmaEntry, if_pos hgt]
  · simp [Gaussian.invsigma, invsigmaEntry, if_neg (not_lt.mpr hle)]
  · simpa [Gaussian.invsigma, invsigmaEntry, if_neg (not_lt.mpr hle)] using hle

/-- A concrete isotropic hill with width 2 used as sample input. -/
def hillWidthTwo : Gaussian := ⟨fun _ => 0, fun _ => 2, 1, false⟩

/-- A degenerate hill with width 0 used as sample input. -/
def hillWidthZero : Gaussian := ⟨fun _ => 0, fun _ => 0, 1, false⟩

/-- C10 witness: the constructor inverts the width 2 and leaves the width 0
untouched. -/
theorem C10_invsigma_cache_witness :
    hillWidthTwo.invsigma 0 = 1 / hillWidthTwo.sigma 0 ∧
    hillWidthZero.invsigma 0 = hillWidthZero.sigma 0 := by
  constructor
  · exact (C10_invsigma_cache hillWidthTwo 0).1 (by norm_num [hillWidthTwo])
  · exact (C10_invsigma_cache hillWidthZero 0).2.1 (by norm_num [hillWidthZero])

/-- C3: in well-tempered mode a written height is the in-memory height times
biasf/(biasf-1) and a read height is the stored height times (biasf-1)/biasf,
so a write-then-read round trip reproduces the in-memory height exactly;
with well-tempering disabled both directions are the identity. -/
theorem C3_height_roundtrip (wt : Bool) (biasf h : ℝ) (hb : wt = true → 1 < biasf) :
    readHeight wt biasf (writeHeight wt biasf h) = h ∧
    (wt = true → writeHeight wt biasf h = h * (biasf / (biasf - 1))) ∧
    (wt = false → writeHeight wt biasf h = h ∧ readHeight wt biasf h = h) := by
  cases wt with
  | false => simp [readHeight, writeHeight]
  | true =>
    have h1 : 1 < biasf := hb rfl
    have h0 : biasf ≠ 0 := by linarith
    have h0' : biasf - 1 ≠ 0 := by intro hc; nlinarith
    refine ⟨?_, fun _ => rfl, by simp⟩
    simp only [readHeight, writeHeight, if_pos]
    field_simp

/-- C3 witness: round trip at bias factor 10 and height 3. -/
theorem C3_height_roundtrip_witness :
    readHeight true 10 (writeHeight true 10 3) = 3 := by
  exact (C3_height_roundtrip true 10 3 (fun _ => by norm_num)).1

/-- The plain non-periodic difference function b - a, the difference used for
a CV without periodicity. -/
def subDiff : ℕ → ℝ → ℝ → ℝ := fun _ a b => b - a

/-- The interval gate is open whenever the restriction is inactive. -/
theorem noInterval_gate (cv : ℕ → ℝ) : intervalGate noInterval cv := Or.inr rfl

/-- The hill of the deposition scenario: one CV, center 1, width 0.2,
height 0.3. -/
def scenHill : Gaussian := ⟨fun _ => 1, fun _ => 0.2, 0.3, false⟩

/-- For a non-multivariate hill, evaluateGaussian takes the isotropic branch. -/
theorem evalIso_not_mv (diff : ℕ → ℝ → ℝ → ℝ) (I : Interval) (ncv : ℕ)
    (cv : ℕ → ℝ) (h : Gaussian) (hmv : h.multivariate = false) :
    evaluateGaussian diff I ncv cv h =
      (if dp2Iso diff ncv h cv < DP2CUTOFF ∧ intervalGate I cv then
        (h.height * Real.exp (-(dp2Iso diff ncv h cv)),
         fun i => if i < ncv then
           -(h.height * Real.exp (-(dp2Iso diff ncv h cv))) * dpIso diff h cv i *
             invsigmaEntry (h.sigma i)
           else 0)
      else (0, fun _ => 0)) := by
  simp only [evaluateGaussian]
  rw [if_neg (by simp [hmv])]

/-- C1 counterexample: for the isotropic hill of width 2 centered at 0 and the
query point 1, the derivative contribution computed by evaluateGaussian is
-value * d / sigma^2 = -value/4 and differs from the claimed
-value * d / sigma = -value/2 (d being the periodic difference). -/
theorem C1_counterexample :
    (evaluateGaussian subDiff noInterval 1 (fun _ => 1) hillWidthTwo).2 0 ≠
      -((evaluateGaussian subDiff noInterval 1 (fun _ => 1) hillWidthTwo).1) *
        subDiff 0 (hillWidthTwo.center 0) 1 / hillWidthTwo.sigma 0 := by
  have hinv : invsigmaEntry 2 = 1 / 2 := by
    rw [invsigmaEntry, if_pos (by rw [abs_of_pos]; norm_num; norm_num)]
  have hdp2 : dp2Iso subDiff 1 hillWidthTwo (fun _ => 1) = 1 / 8 := by
    simp only [dp2Iso, Finset.sum_range_one, dpIso, subDiff, hillWidthTwo]
    rw [hinv]; norm_num
  rw [evalIso_not_mv subDiff noInterval 1 (fun _ => 1) hillWidthTwo rfl,
    if_pos (And.intro (by rw [hdp2]; norm_num [DP2CUTOFF]) (noInterval_gate _))]
  rw [hdp2]
  simp only [dpIso, subDiff, hillWidthTwo]
  rw [hinv]
  norm_num
  intro hcontra
  nlinarith [Real.exp_pos (-(1 / 8)), hcontra]

/-- C1 (amended): with the interval restriction inactive, for every isotropic
hill evaluateGaussian computes d2 as half the sum of squared width-scaled
periodic differences, returns height * exp(-d2) when d2 is below the cutoff
6.25 and exactly zero when d2 is at or above 6.25, and the derivative
contribution on axis i is -value * d_i / sigma_i^2 (the claimed formula with
the width squared) when the width exceeds the 1e-20 threshold; after one
deposition of the isotropic hill of width 0.2 and height 0.3 at center 1.0,
the bias at 1.0 is 0.3 and the bias at 1.2 is 0.3 * exp(-1/2). -/
theorem C1_iso_eval (diff : ℕ → ℝ → ℝ → ℝ) (ncv : ℕ) (cv : ℕ → ℝ) (h : Gaussian)
    (hmv : h.multivariate = false) :
    ((dp2Iso diff ncv h cv < DP2CUTOFF →
        (evaluateGaussian diff noInterval ncv cv h).1 =
          h.height * Real.exp (-(dp2Iso diff ncv h cv))) ∧
     (DP2CUTOFF ≤ dp2Iso diff ncv h cv →
        (evaluateGaussian diff noInterval ncv cv h).1 = 0) ∧
     (dp2Iso diff ncv h cv < DP2CUTOFF → ∀ i, i < ncv → 1e-20 < |h.sigma i| →
        (evaluateGaussian diff noInterval ncv cv h).2 i =
          -((evaluateGaussian diff noInterval ncv cv h).1) *
            diff i (h.center i) (cv i) / h.sigma i ^ 2)) ∧
    (getBiasList subDiff noInterval 1 [scenHill] (fun _ => 1) = 0.3 ∧
     getBiasList subDiff noInterval 1 [scenHill] (fun _ => 1.2) =
       0.3 * Real.exp (-(1 / 2))) := by
  have heq := evalIso_not_mv diff noInterval ncv cv h hmv
  have hval : dp2Iso diff ncv h cv < DP2CUTOFF →
      (evaluateGaussian diff noInterval ncv cv h).1 =
        h.height * Real.exp (-(dp2Iso diff ncv h cv)) := by
    intro hlt
    rw [heq, if_pos (And.intro hlt (noInterval_gate cv))]
  have hgb : ∀ cvq : ℕ → ℝ, getBiasList subDiff noInterval 1 [scenHill] cvq =
      (evaluateGaussian subDiff noInterval 1 cvq scenHill).1 := by
    intro cvq
    simp [getBiasList]
  constructor
  · refine ⟨hval, fun hge => ?_, fun hlt i hi hw => ?_⟩
    · rw [heq, if_neg (fun hc => absurd hc.1 (not_lt.mpr hge))]
    · have hinv : invsigmaEntry (h.sigma i) = (h.sigma i)⁻¹ := by
        rw [invsigmaEntry, if_pos hw, one_div]
      rw [hval hlt, heq, if_pos (And.intro hlt (noInterval_gate cv))]
      simp only [if_pos hi, dpIso, hinv]
      rw [div_eq_mul_inv, pow_two, mul_inv]
      ring
  · have hinv5 : invsigmaEntry 0.2 = 5 := by
      rw [invsigmaEntry, if_pos (by rw [abs_of_pos]; norm_num; norm_num)]
      norm_num
    have hscen := fun cvq => evalIso_not_mv subDiff noInterval 1 cvq scenHill rfl
    constructor
    · have hdp2 : dp2Iso subDiff 1 scenHill (fun _ => 1) = 0 := by
        simp only [dp2Iso, Finset.sum_range_one, dpIso, subDiff, scenHill]
        norm_num
      rw [hgb, hscen, if_pos (And.intro (by rw [hdp2]; norm_num [DP2CUTOFF]) (noInterval_gate _))]
      rw [hdp2]
      norm_num [scenHill]
    · have hdp2 : dp2Iso subDiff 1 scenHill (fun _ => 1.2) = 1 / 2 := by
        simp only [dp2Iso, Finset.sum_range_one, dpIso, subDiff, scenHill]
        rw [hinv5]; norm_num
      rw [hgb, hscen, if_pos (And.intro (by rw [hdp2]; norm_num [DP2CUTOFF]) (noInterval_gate _))]
      rw [hdp2]
      norm_num [scenHill]

/-- C1 witness: the amended derivative formula applied at the concrete
width-2 hill: the derivative contribution equals -value * d / sigma^2. -/
theorem C1_iso_eval_witness :
    (evaluateGaussian subDiff noInterval 1 (fun _ => 1) hillWidthTwo).2 0 =
      -((evaluateGaussian subDiff noInterval 1 (fun _ => 1) hillWidthTwo).1) *
        subDiff 0 (hillWidthTwo.center 0) ((fun _ => (1:ℝ)) 0) / hillWidthTwo.sigma 0 ^ 2 := by
  have hdp2 : dp2Iso subDiff 1 hillWidthTwo (fun _ => 1) = 1 / 8 := by
    have hinv : invsigmaEntry 2 = 1 / 2 := by rw [invsigmaEntry, if_pos (by norm_num)]
    norm_num [dp2Iso, dpIso, subDiff, hillWidthTwo, hinv, Finset.sum_range_one]
  exact ((C1_iso_eval subDiff 1 (fun _ => 1) hillWidthTwo rfl).1.2.2
    (by rw [hdp2]; norm_num [DP2CUTOFF]) 0 (by norm_num)
    (by norm_num [hillWidthTwo]))

/-- One worker's partial bias in list mode: the loop
for i = rank; i < hills_.size(); i += stride covers exactly the indices k
with k % stride = rank (for rank below stride). -/
def workerBias (diff : ℕ → ℝ → ℝ → ℝ) (I : Interval) (ncv : ℕ)
    (hills : List Gaussian) (cv : ℕ → ℝ) (P r : ℕ) : ℝ :=
  ∑ k ∈ (Finset.range hills.length).filter (fun k => k % P = r),
    (evaluateGaussian diff I ncv cv (hills.getD k default)).1

/-- One worker's partial derivative component i in list mode. -/
def workerDer (diff : ℕ → ℝ → ℝ → ℝ) (I : Interval) (ncv : ℕ)
    (hills : List Gaussian) (cv : ℕ → ℝ) (P r : ℕ) (i : ℕ) : ℝ :=
  ∑ k ∈ (Finset.range hills.length).filter (fun k => k % P = r),
    (evaluateGaussian diff I ncv cv (hills.getD k default)).2 i

/-- The global sum reduction (comm.Sum) of the partial biases of all P workers. -/
def reducedBias (diff : ℕ → ℝ → ℝ → ℝ) (I : Interval) (ncv : ℕ)
    (hills : List Gaussian) (cv : ℕ → ℝ) (P : ℕ) : ℝ :=
  ∑ r ∈ Finset.range P, workerBias diff I ncv hills cv P r

/-- The global sum reduction of the partial derivative components of all
P workers. -/
def reducedDer (diff : ℕ → ℝ → ℝ → ℝ) (I : Interval) (ncv : ℕ)
    (hills : List Gaussian) (cv : ℕ → ℝ) (P : ℕ) (i : ℕ) : ℝ :=
  ∑ r ∈ Finset.range P, workerDer diff I ncv hills cv P r i

/-- C4: in list mode, the strided partition of the hill sequence followed by
a global sum reduction yields, for every worker count P of at least one,
exactly the sequential sum of evaluateGaussian over every stored hill, for
the bias and for every gradient component. -/
theorem C4_strided_reduction (diff : ℕ → ℝ → ℝ → ℝ) (I : Interval) (ncv : ℕ)
    (hills : List Gaussian) (cv : ℕ → ℝ) (P : ℕ) (hP : 1 ≤ P) :
    reducedBias diff I ncv hills cv P = getBiasList diff I ncv hills cv ∧
    ∀ i, reducedDer diff I ncv hills cv P i = getDerList diff I ncv hills cv i := by
  have key : ∀ f : ℕ → ℝ,
      (∑ r ∈ Finset.range P,
        ∑ k ∈ (Finset.range hills.length).filter (fun k => k % P = r), f k) =
      ∑ k ∈ Finset.range hills.length, f k := by
    intro f
    exact Finset.sum_fiberwise_of_maps_to
      (fun k _ => Finset.mem_range.mpr (Nat.mod_lt k hP)) f
  constructor
  · simpa only [reducedBias, workerBias, getBiasList] using
      key (fun k => (evaluateGaussian diff I ncv cv (hills.getD k default)).1)
  · intro i
    simpa only [reducedDer, workerDer, getDerList] using
      key (fun k => (evaluateGaussian diff I ncv cv (hills.getD k default)).2 i)

/-- A sample list of three hills. -/
def hillsSample : List Gaussian := [hillWidthTwo, scenHill, hillWidthZero]

/-- C4 witness: two workers and a single worker agree on the sample hills. -/
theorem C4_strided_reduction_witness :
    reducedBias subDiff noInterval 1 hillsSample (fun _ => 1) 2 =
      getBiasList subDiff noInterval 1 hillsSample (fun _ => 1) ∧
    reducedDer subDiff noInterval 1 hillsSample (fun _ => 1) 2 0 =
      getDerList subDiff noInterval 1 hillsSample (fun _ => 1) 0 := by
  refine ⟨(C4_strided_reduction subDiff noInterval 1 hillsSample (fun _ => 1) 2 ?_).1,
          (C4_strided_reduction subDiff noInterval 1 hillsSample (fun _ => 1) 2 ?_).2 0⟩ <;>
    norm_num

/-- The deposition-relevant configuration of the MetaD action: height0_,
stride_ (PACE), biasf_, temp_, the Boltzmann constant of the host engine,
welltemp_ and sigma0_. -/
structure DepositCfg where
  height0 : ℝ
  stride : ℤ
  biasf : ℝ
  temp : ℝ
  kB : ℝ
  welltemp : Bool
  sigma0 : ℕ → ℝ

/-- The accumulator interface shared by the two storage strategies: query the
accumulated bias at a point, and add one Gaussian (hills_ push or grid splat). -/
structure Accum (α : Type) where
  getBias : α → (ℕ → ℝ) → ℝ
  addG : α → Gaussian → α

/-- MetaD::getHeight: height0, rescaled in well-tempered mode by
exp(-V/(kB * T * (biasf-1))) where V is the bias queried from the current
accumulator state. -/
def getHeight {α : Type} (cfg : DepositCfg) (A : Accum α) (a : α) (cv : ℕ → ℝ) : ℝ :=
  if cfg.welltemp = true then
    cfg.height0 * Real.exp (-(A.getBias a cv) / (cfg.kB * cfg.temp * (cfg.biasf - 1)))
  else cfg.height0

/-- The mutable state seen by MetaD::update: the accumulator and the
isFirstStep flag. -/
structure MDState (α : Type) where
  acc : α
  isFirstStep : Bool

/-- MetaD::update, deposition part, non-adaptive path: a hill is added when
the step is a multiple of the stride and this is not the first call; the
height is computed from the pre-deposition accumulator state and only then
is the new hill added. -/
def update {α : Type} (cfg : DepositCfg) (A : Accum α) (st : MDState α)
    (step : ℤ) (cv : ℕ → ℝ) : MDState α :=
  if step % cfg.stride = 0 ∧ st.isFirstStep = false then
    { acc := A.addG st.acc ⟨cv, cfg.sigma0, getHeight cfg A st.acc cv, false⟩,
      isFirstStep := st.isFirstStep }
  else
    { acc := st.acc, isFirstStep := false }

/-- The list-mode accumulator: hills_ with push_back and the summed bias. -/
def listAccum (diff : ℕ → ℝ → ℝ → ℝ) (I : Interval) (ncv : ℕ) :
    Accum (List Gaussian) :=
  { getBias := fun hills cv => getBiasList diff I ncv hills cv
    addG := fun hills h => hills ++ [h] }

/-- C2: whenever well-tempered mode is enabled and a deposition step occurs,
the deposited hill's height equals
height0 * exp(-V/(kB * T * (biasf - 1))) with V the accumulated bias at the
hill's center queried from the accumulator state strictly before the hill
is added: the posterior state is addG applied to the prior state and to a
hill whose height reads the prior state's bias (read-before-write). -/
theorem C2_read_before_write {α : Type} (cfg : DepositCfg) (A : Accum α) (a : α)
    (step : ℤ) (cv : ℕ → ℝ) (hwt : cfg.welltemp = true)
    (hstep : step % cfg.stride = 0) :
    update cfg A ⟨a, false⟩ step cv =
      ⟨A.addG a ⟨cv, cfg.sigma0,
        cfg.height0 * Real.exp (-(A.getBias a cv) /
          (cfg.kB * cfg.temp * (cfg.biasf - 1))), false⟩, false⟩ := by
  simp [update, getHeight, hstep, hwt]

/-- A sample well-tempered configuration: height 0.3, stride 500, bias
factor 10, temperature 2, Boltzmann constant 1, width 0.2. -/
def cfgSample : DepositCfg := ⟨0.3, 500, 10, 2, 1, true, fun _ => 0.2⟩

/-- C2 witness: one deposition into an empty list accumulator at step 500. -/
theorem C2_read_before_write_witness :
    update cfgSample (listAccum subDiff noInterval 1) ⟨[], false⟩ 500 (fun _ => 1) =
      ⟨(listAccum subDiff noInterval 1).addG []
        ⟨fun _ => 1, cfgSample.sigma0,
          cfgSample.height0 *
            Real.exp (-((listAccum subDiff noInterval 1).getBias [] (fun _ => 1)) /
              (cfgSample.kB * cfgSample.temp * (cfgSample.biasf - 1))), false⟩,
       false⟩ := by
  exact C2_read_before_write cfgSample (listAccum subDiff noInterval 1) []
    500 (fun _ => 1) rfl (by decide)

/-- C9: on the very first call to update no hill is deposited regardless of
the step number, and the first-step flag is cleared by every call; on every
later call a hill is deposited exactly when the step is a multiple of the
stride.  A fresh run starts with the flag set, so no hill is deposited at
step 0 of a fresh run. -/
theorem C9_first_step_gate {α : Type} (cfg : DepositCfg) (A : Accum α) (a : α)
    (step : ℤ) (cv : ℕ → ℝ) :
    (update cfg A ⟨a, true⟩ step cv = ⟨a, false⟩) ∧
    ((update cfg A ⟨a, false⟩ step cv).isFirstStep = false) ∧
    (step % cfg.stride = 0 →
      update cfg A ⟨a, false⟩ step cv =
        ⟨A.addG a ⟨cv, cfg.sigma0, getHeight cfg A a cv, false⟩, false⟩) ∧
    (¬ step % cfg.stride = 0 →
      update cfg A ⟨a, false⟩ step cv = ⟨a, false⟩) := by
  refine ⟨?_, ?_, fun hs => ?_, fun hs => ?_⟩
  · rw [update, if_neg (fun hc => by simpa using hc.2)]
  · by_cases hs : step % cfg.stride = 0
    · rw [update, if_pos (And.intro hs rfl)]
    · rw [update, if_neg (fun hc => hs hc.1)]
  · rw [update, if_pos (And.intro hs rfl)]
  · rw [update, if_neg (fun hc => hs hc.1)]

/-- C9 witness: with stride 500 the fresh-flag call at step 500 deposits
nothing, and a later call at step 501 deposits nothing either. -/
theorem C9_first_step_gate_witness :
    update cfgSample (listAccum subDiff noInterval 1) ⟨[], true⟩ 500 (fun _ => 1) =
      ⟨[], false⟩ ∧
    update cfgSample (listAccum subDiff noInterval 1) ⟨[], false⟩ 501 (fun _ => 1) =
      ⟨[], false⟩ := by
  exact ⟨(C9_first_step_gate cfgSample (listAccum subDiff noInterval 1) []
            500 (fun _ => 1)).1,
         (C9_first_step_gate cfgSample (listAccum subDiff noInterval 1) []
            501 (fun _ => 1)).2.2.2 (by decide)⟩

/-- Modelled from the spec: the Grid collaborator (tools/Grid.h is not under
src/) as a black-box point evaluator returning the interpolated value and the
per-axis derivatives at a query point. -/
structure GridEval where
  value : (ℕ → ℝ) → ℝ
  deriv : (ℕ → ℝ) → ℕ → ℝ

/-- Grid-mode branch of MetaD::getBiasAndDerivatives when a derivative buffer
is supplied: the returned bias is the grid lookup unconditionally, while the
buffer is overwritten with the grid derivatives only when the interval gate
is open (otherwise it keeps the value it was passed in with). -/
def getBiasAndDerGrid (G : GridEval) (I : Interval) (cv : ℕ → ℝ)
    (derIn : ℕ → ℝ) : ℝ × (ℕ → ℝ) :=
  (G.value cv, if intervalGate I cv then G.deriv cv else derIn)

/-- Both branches of evaluateGaussian contribute nothing when the interval
gate is closed. -/
theorem eval_gate_closed (diff : ℕ → ℝ → ℝ → ℝ) (I : Interval) (ncv : ℕ)
    (cv : ℕ → ℝ) (h : Gaussian) (hg : ¬ intervalGate I cv) :
    evaluateGaussian diff I ncv cv h = (0, fun _ => 0) := by
  simp only [evaluateGaussian]
  split
  · rw [if_neg (fun hc => hg hc.2)]
  · rw [if_neg (fun hc => hg hc.2)]

/-- A query point whose first CV lies strictly outside the closed interval
closes the interval gate. -/
theorem outside_not_gate (lowI uppI : ℝ) (cv : ℕ → ℝ)
    (hout : cv 0 < lowI ∨ uppI < cv 0) :
    ¬ intervalGate ⟨true, lowI, uppI⟩ cv := by
  intro hg
  simp only [intervalGate] at hg
  rcases hg with ⟨_, h1, h2⟩ | hfalse
  · rcases hout with hh | hh <;> linarith
  · simp at hfalse

/-- A sample grid state whose lookup returns 5 everywhere with derivative 7. -/
def gridSample : GridEval := ⟨fun _ => 5, fun _ _ => 7⟩

/-- C5 counterexample: in grid mode, at a query point (first CV equal to 2)
outside the active interval with upper bound 1, getBiasAndDerivatives
returns the grid lookup value 5, not zero: the code gates only the
derivative copy, never the bias value. -/
theorem C5_counterexample :
    ((1 : ℝ) < 2) ∧
    (getBiasAndDerGrid gridSample ⟨true, 0, 1⟩ (fun _ => 2) (fun _ => 0)).1 ≠ 0 := by
  refine ⟨by norm_num, ?_⟩
  simp only [getBiasAndDerGrid, gridSample]
  norm_num

/-- C5 (amended): outside the closed interval, in list mode the bias and
every derivative contribution are zero; in grid mode the derivative buffer
is returned unchanged (hence zero when it was passed in zeroed) while the
returned bias equals the grid lookup value and is not forced to zero. -/
theorem C5_interval_outside (diff : ℕ → ℝ → ℝ → ℝ) (ncv : ℕ)
    (hills : List Gaussian) (cv : ℕ → ℝ) (lowI uppI : ℝ)
    (hout : cv 0 < lowI ∨ uppI < cv 0) :
    (getBiasList diff ⟨true, lowI, uppI⟩ ncv hills cv = 0 ∧
     ∀ i, getDerList diff ⟨true, lowI, uppI⟩ ncv hills cv i = 0) ∧
    (∀ (G : GridEval) (derIn : ℕ → ℝ),
      (getBiasAndDerGrid G ⟨true, lowI, uppI⟩ cv derIn).2 = derIn ∧
      (getBiasAndDerGrid G ⟨true, lowI, uppI⟩ cv derIn).1 = G.value cv) := by
  have hng := outside_not_gate lowI uppI cv hout
  have hz : ∀ h : Gaussian,
      evaluateGaussian diff ⟨true, lowI, uppI⟩ ncv cv h = (0, fun _ => 0) :=
    fun h => eval_gate_closed diff _ ncv cv h hng
  refine ⟨⟨?_, fun i => ?_⟩, fun G derIn => ⟨?_, rfl⟩⟩
  · simp [getBiasList, hz]
  · simp [getDerList, hz]
  · simp only [getBiasAndDerGrid]
    rw [if_neg hng]

/-- C5 witness: the amended statement at a concrete outside point. -/
theorem C5_interval_outside_witness :
    getBiasList subDiff ⟨true, 0, 1⟩ 1 [scenHill] (fun _ => 2) = 0 ∧
    (getBiasAndDerGrid gridSample ⟨true, 0, 1⟩ (fun _ => 2) (fun _ => 0)).2 =
      (fun _ => 0) := by
  exact ⟨(C5_interval_outside subDiff 1 [scenHill] (fun _ => 2) 0 1
            (Or.inr (by norm_num))).1.1,
         ((C5_interval_outside subDiff 1 [scenHill] (fun _ => 2) 0 1
            (Or.inr (by norm_num))).2 gridSample (fun _ => 0)).1⟩

/-- The adaptive-width scheme selected by the ADAPTIVE keyword. -/
inductive AdaptiveKind
  | off
  | geom
  | diffusion
deriving DecidableEq

/-- The configuration fields of the MetaD constructor that the modelled
validation checks read: number of CV arguments, length of the parsed SIGMA
vector, adaptive scheme, HEIGHT, PACE, BIASFACTOR, TEMP and the interval
bounds (defaulting to equal values when no interval is requested). -/
structure MetaConfig where
  nargs : ℕ
  sigmaLen : ℕ
  adaptive : AdaptiveKind
  height0 : ℚ
  pace : ℤ
  biasf : ℚ
  temp : ℚ
  lowI : ℚ
  uppI : ℚ

/-- The configuration-time validation sequence of the MetaD constructor on
the modelled fields: true exactly when no error() call fires.  In order:
the SIGMA-length checks (against the argument count in non-adaptive mode,
against one in adaptive mode), positive HEIGHT, positive PACE, bias factor
at least one, temperature required with a bias factor above one, and the
interval checks (fired only when the bounds differ): SIGMA length one and
ordered bounds. -/
def configOk (c : MetaConfig) : Bool :=
  (match c.adaptive with
   | AdaptiveKind.off => decide (c.sigmaLen = c.nargs)
   | _ => decide (c.sigmaLen = 1))
  && decide (0 < c.height0)
  && decide (0 < c.pace)
  && decide (1 ≤ c.biasf)
  && !(decide (1 < c.biasf) && decide (c.temp = 0))
  && (if c.uppI ≠ c.lowI then decide (c.sigmaLen = 1) && decide (c.lowI ≤ c.uppI)
      else true)

/-- Acceptance characterization of the modelled validation checks. -/
theorem configOk_true_iff (c : MetaConfig) :
    configOk c = true ↔
      ((c.adaptive = AdaptiveKind.off → c.sigmaLen = c.nargs) ∧
       (c.adaptive ≠ AdaptiveKind.off → c.sigmaLen = 1) ∧
       0 < c.height0 ∧ 0 < c.pace ∧ 1 ≤ c.biasf ∧
       ¬(1 < c.biasf ∧ c.temp = 0) ∧
       (c.uppI ≠ c.lowI → c.sigmaLen = 1 ∧ c.lowI ≤ c.uppI)) := by
  cases hA : c.adaptive <;> by_cases hI : c.uppI ≠ c.lowI <;>
    simp [configOk, hA, hI, and_assoc, not_and, imp_iff_not_or]

/-- The configuration that exposes the gap: two CVs, adaptive scheme with
one SIGMA, interval requested; every modelled check passes. -/
def badConfig : MetaConfig :=
  { nargs := 2, sigmaLen := 1, adaptive := AdaptiveKind.diffusion, height0 := 1,
    pace := 1, biasf := 1, temp := 0, lowI := 0, uppI := 1 }

/-- C7 counterexample: the interval restriction is requested (distinct
bounds) with more than one CV, yet the constructor accepts the
configuration, because the code checks the SIGMA length (one, in adaptive
mode) rather than the CV count. -/
theorem C7_counterexample :
    configOk badConfig = true ∧ badConfig.uppI ≠ badConfig.lowI ∧
      1 < badConfig.nargs := by
  refine ⟨?_, by decide, by decide⟩
  decide

/-- C7 (amended): the configuration is rejected whenever the SIGMA length
differs from the CV count in non-adaptive mode, HEIGHT is zero or negative,
PACE is zero or negative, the bias factor exceeds one with no temperature
given (or the bias factor is below one), the interval restriction is
requested while the SIGMA length is not exactly one (which in non-adaptive
mode is requesting it with more than one CV), the interval has upper below
lower, or an adaptive scheme is selected with SIGMA length other than one. -/
theorem C7_rejections (c : MetaConfig)
    (hbad : (c.adaptive = AdaptiveKind.off ∧ c.sigmaLen ≠ c.nargs)
      ∨ c.height0 ≤ 0
      ∨ c.pace ≤ 0
      ∨ (1 < c.biasf ∧ c.temp = 0)
      ∨ c.biasf < 1
      ∨ (c.uppI ≠ c.lowI ∧ c.sigmaLen ≠ 1)
      ∨ c.uppI < c.lowI
      ∨ (c.adaptive ≠ AdaptiveKind.off ∧ c.sigmaLen ≠ 1)) :
    configOk c = false := by
  rw [Bool.eq_false_iff]
  intro ht
  rw [configOk_true_iff] at ht
  obtain ⟨hA1, hA2, hH, hP, hB1, hBT, hInt⟩ := ht
  rcases hbad with ⟨ha, hs⟩ | hh | hp | hbt | hb | ⟨hi, hs⟩ | hul | ⟨ha, hs⟩
  · exact hs (hA1 ha)
  · exact absurd hH (not_lt.mpr hh)
  · exact absurd hP (not_lt.mpr hp)
  · exact hBT hbt
  · exact absurd hB1 (not_le.mpr hb)
  · exact hs (hInt hi).1
  · exact absurd (hInt (ne_of_lt hul)).2 (not_le.mpr hul)
  · exact hs (hA2 ha)

/-- C7 witness: a zero HEIGHT is rejected. -/
theorem C7_rejections_witness :
    configOk { nargs := 1, sigmaLen := 1, adaptive := AdaptiveKind.off,
               height0 := 0, pace := 1, biasf := 1, temp := 0,
               lowI := 0, uppI := 0 } = false := by
  exact C7_rejections _ (Or.inr (Or.inl le_rfl))

/-- Modelled from the spec: one parsed HILLS record as presented to
MetaD::scanOneHill by the IFile reader (tools/File.h is not under src/).
Per CV, the periodicity metadata read from the file header is either
nothing (non-periodic) or the pair of domain bounds; the remaining fields
are the record's numbers, the multivariate flag string, and the optional
trailing clock field. -/
structure HillRecord where
  periods : List (Option (String × String))
  centers : List ℚ
  mvfield : String
  sigmas : List ℚ
  height : ℚ
  biasfF : ℚ
  clock : Option ℤ

/-- The per-CV periodicity acceptance test of scanOneHill: a record value
marked periodic is rejected when the run's CV is not periodic, and when both
are periodic the domain bounds must match exactly; a record value marked
non-periodic is accepted without any comparison. -/
def periodCheckOne (filep runp : Option (String × String)) : Bool :=
  match filep, runp with
  | some _, Option.none => false
  | some (a, b), some (c, d) => decide (a = c) && decide (b = d)
  | Option.none, _ => true

/-- MetaD::scanOneHill on one record: the periodicity metadata of every CV is
validated first, then the multivariate flag must be one of the literal
strings true or false; the clock field is never consulted.  The multivariate
sigma reconstruction (band read, multiply, invert via tools/Matrix.h, not
under src/) is beyond this model, which passes the sigma fields through. -/
def scanOneHill (runPeriods : List (Option (String × String))) (r : HillRecord) :
    Except String (List ℚ × List ℚ × ℚ × Bool) :=
  if (List.zip r.periods runPeriods).all (fun p => periodCheckOne p.1 p.2) then
    if r.mvfield = "true" then Except.ok (r.centers, r.sigmas, r.height, true)
    else if r.mvfield = "false" then Except.ok (r.centers, r.sigmas, r.height, false)
    else Except.error ("cannot parse multivariate = " ++ r.mvfield)
  else Except.error "periodicity in hills file does not match periodicity in input"

/-- True exactly when the scan raised a fatal error. -/
def isFatal {α : Type} (e : Except String α) : Bool :=
  match e with
  | Except.error _ => true
  | Except.ok _ => false

/-- The run periodicity of the sample: one periodic CV with domain 0 to 1. -/
def runPeriodsSample : List (Option (String × String)) := [some ("0", "1")]

/-- A record that marks the CV non-periodic while the run's CV is periodic. -/
def recNonPeriodic : HillRecord :=
  ⟨[Option.none], [0], "false", [1], 1, 1, Option.none⟩

/-- C8 counterexample: a record whose periodicity metadata (non-periodic)
does not match the run's CV periodicity (periodic with domain 0 to 1) is
accepted without any fatal error: the code only rejects the periodic-in-file
cases, never the non-periodic-in-file case. -/
theorem C8_counterexample :
    isFatal (scanOneHill runPeriodsSample recNonPeriodic) = false ∧
    recNonPeriodic.periods ≠ runPeriodsSample := by
  exact ⟨rfl, by decide⟩

/-- C8 (amended): scanOneHill fails exactly when some CV of the record is
marked periodic while the run's CV is not, or both are periodic with
different domain bounds, or the multivariate field is a string other than
the literals true and false; a record marking a CV non-periodic is accepted
even when the run's CV is periodic; the trailing clock field never affects
the outcome. -/
theorem C8_scan_validation (runp : List (Option (String × String)))
    (r : HillRecord) :
    (isFatal (scanOneHill runp r) =
      (!((List.zip r.periods runp).all fun p => periodCheckOne p.1 p.2) ||
       (!(decide (r.mvfield = "true")) && !(decide (r.mvfield = "false"))))) ∧
    (∀ fp rp : Option (String × String),
      periodCheckOne fp rp = true ↔
        (fp = Option.none ∨ ∃ a b : String, fp = some (a, b) ∧ rp = some (a, b))) ∧
    (∀ cl : Option ℤ,
      scanOneHill runp ⟨r.periods, r.centers, r.mvfield, r.sigmas, r.height,
        r.biasfF, cl⟩ = scanOneHill runp r) := by
  refine ⟨?_, ?_, fun cl => rfl⟩
  · by_cases hall : (List.zip r.periods runp).all (fun p => periodCheckOne p.1 p.2) = true
    · by_cases ht : r.mvfield = "true"
      · simp [scanOneHill, isFatal, hall, ht]
      · by_cases hf : r.mvfield = "false"
        · simp [scanOneHill, isFatal, hall, ht, hf]
        · simp [scanOneHill, isFatal, hall, ht, hf]
    · simp [scanOneHill, isFatal, hall, Bool.eq_false_iff.mpr hall]
  · intro fp rp
    rcases fp with _ | ⟨a, b⟩ <;> rcases rp with _ | ⟨c, d⟩ <;>
      simp [periodCheckOne]

/-- C8 witness: the characterization evaluated on the sample record, and an
unparseable multivariate flag is fatal. -/
theorem C8_scan_validation_witness :
    isFatal (scanOneHill runPeriodsSample recNonPeriodic) =
      (!((List.zip recNonPeriodic.periods runPeriodsSample).all
          fun p => periodCheckOne p.1 p.2) ||
       (!(decide (recNonPeriodic.mvfield = "true")) &&
        !(decide (recNonPeriodic.mvfield = "false")))) ∧
    scanOneHill runPeriodsSample
      ⟨recNonPeriodic.periods, recNonPeriodic.centers, recNonPeriodic.mvfield,
       recNonPeriodic.sigmas, recNonPeriodic.height, recNonPeriodic.biasfF,
       some 7⟩ = scanOneHill runPeriodsSample recNonPeriodic := by
  exact ⟨(C8_scan_validation runPeriodsSample recNonPeriodic).1,
         (C8_scan_validation runPeriodsSample recNonPeriodic).2.2 (some 7)⟩

/-- Per-axis neighborhood half-width in grid cells for an isotropic hill
(MetaD::getGaussianSupport, non-multivariate branch):
ceil(sqrt(2 * DP2CUTOFF) * sigma_i / dx_i). -/
def supportIso (sigma dx : ℕ → ℝ) (i : ℕ) : ℕ :=
  ⌈Real.sqrt (2 * DP2CUTOFF) * sigma i / dx i⌉₊

/-- The maximum-eigenvalue selection loop of getGaussianSupport: starting
from value 0 and index ncv, each strictly larger eigenvalue replaces the
current pair. -/
def selectMax (ncv : ℕ) (vals : ℕ → ℝ) : ℝ × ℕ :=
  (List.range ncv).foldl
    (fun cur i => if vals i > cur.1 then (vals i, i) else cur) (0, ncv)

/-- Modelled from the spec: Invert and diagMat (tools/Matrix.h, not under
src/) are external, so the multivariate branch of getGaussianSupport is
modelled as a function of the eigen-decomposition (autoval, autovec) of the
inverted recomposed matrix, exactly as the code consumes it: per axis i the
half-width is ceil(sqrt(2 * DP2CUTOFF) * abs(sqrt(largest eigenvalue) *
autovec(i, index of largest eigenvalue)) / dx_i). -/
def supportMv (ncv : ℕ) (autoval : ℕ → ℝ) (autovec : ℕ → ℕ → ℝ)
    (dx : ℕ → ℝ) (i : ℕ) : ℕ :=
  let m := selectMax ncv autoval
  ⌈Real.sqrt (2 * DP2CUTOFF) * |Real.sqrt m.1 * autovec i m.2| / dx i⌉₊

/-- The packed inverse covariance of the failing hill: diagonal entries 1/4
and 1, off-diagonal 0, in band order. -/
def packedSample : ℕ → ℝ := fun k => if k = 0 then 1 / 4 else if k = 1 then 0 else 1

/-- The failing multivariate hill: two CVs, center at the origin, unit
height. -/
def hillMvSample : Gaussian := ⟨fun _ => 0, packedSample, 1, true⟩

/-- The inverse of the recomposed matrix of the failing hill: the diagonal
covariance with entries 4 and 1. -/
def covSample : ℕ → ℕ → ℝ := fun i j => if i = j then (if i = 0 then 4 else 1) else 0

/-- Its eigenvalues: 4 on axis 0 and 1 on axis 1. -/
def valsSample : ℕ → ℝ := fun i => if i = 0 then 4 else 1

/-- Its eigenvector matrix: the identity (columns are the standard basis). -/
def vecsSample : ℕ → ℕ → ℝ := fun i j => if i = j then 1 else 0

/-- The grid point one cell away from the hill center along axis 1
(grid spacing 1 on every axis). -/
def ptSample : ℕ → ℝ := fun i => if i = 1 then 1 else 0

/-- The selection loop picks eigenvalue 4 at index 0 on the sample. -/
theorem selectMax_sample : selectMax 2 valsSample = (4, 0) := by
  have h2 : List.range 2 = [0, 1] := by decide
  rw [selectMax, h2]
  simp only [List.foldl_cons, List.foldl_nil]
  have c1 : valsSample 0 > ((0, 2) : ℝ × ℕ).1 := by norm_num [valsSample]
  rw [if_pos c1]
  have c2 : ¬(valsSample 1 > ((valsSample 0, (0 : ℕ)) : ℝ × ℕ).1) := by
    norm_num [valsSample]
  rw [if_neg c2]
  norm_num [valsSample, Prod.ext_iff]

/-- C6: demonstration of the support bug at the failing input.  The packed
matrix recomposes to the diagonal precision diag(1/4, 1); covSample is its
true inverse and valsSample, vecsSample its true eigen-decomposition (both
certified by the first two conjuncts).  The grid point one cell away along
axis 1 has normalized squared distance 1/2, far below the cutoff 6.25, yet
the computed per-axis half-width on axis 1 is 0 cells, because the code
projects only the leading eigenvector (the axis-0 basis vector, whose axis-1
component is 0): the splat neighborhood misses a grid point whose Gaussian
contribution is significant. -/
theorem C6_support_misses_point :
    (∀ i < 2, ∀ j < 2,
      (∑ k ∈ Finset.range 2, recompose 2 packedSample i k * covSample k j) =
        if i = j then 1 else 0) ∧
    (∀ j < 2, ∀ i < 2,
      (∑ k ∈ Finset.range 2, covSample i k * vecsSample k j) =
        valsSample j * vecsSample i j) ∧
    dp2Mv subDiff 2 hillMvSample ptSample < DP2CUTOFF ∧
    supportMv 2 valsSample vecsSample (fun _ => 1) 1 = 0 ∧
    ¬(|ptSample 1 - hillMvSample.center 1| ≤
        (supportMv 2 valsSample vecsSample (fun _ => 1) 1 : ℝ) * 1) := by
  have hsupp : supportMv 2 valsSample vecsSample (fun _ => 1) 1 = 0 := by
    simp only [supportMv, selectMax_sample]
    norm_num [vecsSample]
  refine ⟨?_, ?_, ?_, hsupp, ?_⟩
  · intro i hi j hj
    interval_cases i <;> interval_cases j <;>
      norm_num [Finset.sum_range_succ, recompose, packIdx, packedSample, covSample]
  · intro j hj i hi
    interval_cases j <;> interval_cases i <;>
      norm_num [Finset.sum_range_succ, covSample, vecsSample, valsSample]
  · have hIco02 : Finset.Ico 0 2 = ({0, 1} : Finset ℕ) := by decide
    have hIco12 : Finset.Ico 1 2 = ({1} : Finset ℕ) := by decide
    rw [dp2Mv, Finset.sum_range_succ, Finset.sum_range_succ, Finset.sum_range_zero,
      hIco02, hIco12]
    rw [Finset.sum_insert (by decide), Finset.sum_singleton, Finset.sum_singleton]
    norm_num [recompose, packIdx, packedSample, hillMvSample, ptSample, subDiff,
      DP2CUTOFF]
  · rw [hsupp]
    norm_num [ptSample, hillMvSample]

end MetaDSpec
